import Mathlib

/-!
Shallow embedding of the debug-credential codec
(spsdk/dat/debug_credential.py): byte-level pack/unpack helpers mirroring
Python struct, the DebugCredential data model, the variant registry, the
RoT-metadata builders, signing, export and parse, together with theorems
checking the specification's claims against these definitions.

Bytes are modelled as Nat (each entry a value 0..255 in well-formed data);
multi-byte integers are explicit little-endian digit lists, matching the
struct format strings of the source.
-/

set_option maxRecDepth 1000000

namespace SpsdkDC

/-- Little-endian 2-byte encoding of a value (struct item H, value < 2^16). -/
def le16 (v : Nat) : List Nat := [v % 256, v / 256 % 256]

/-- Little-endian 4-byte encoding of a value (struct item L, value < 2^32). -/
def le32 (v : Nat) : List Nat :=
  [v % 256, v / 256 % 256, v / 65536 % 256, v / 16777216 % 256]

/-- Decode a little-endian byte list into a Nat. -/
def asLE : List Nat → Nat
  | [] => 0
  | b :: bs => b + 256 * asLE bs

/-- Big-endian fixed-width encoding (Python int.to_bytes(n, "big")). -/
def beBytes : Nat → Nat → List Nat
  | 0, _ => []
  | n + 1, v => beBytes n (v / 256) ++ [v % 256]

/-- Contiguous sub-buffer: length-len slice of data starting at off. -/
def slice (data : List Nat) (off len : Nat) : List Nat :=
  (data.drop off).take len

/-- Python struct item "Ns": truncate or zero-pad the buffer to n bytes. -/
def padBytes (n : Nat) (b : List Nat) : List Nat :=
  b.take n ++ List.replicate (n - b.length) 0

/-- Python bytearray slice assignment buf[a:b] = v. -/
def writeSlice (buf : List Nat) (a b : Nat) (v : List Nat) : List Nat :=
  buf.take a ++ v ++ buf.drop b

/-- Error outcomes of codec operations.  Python asserts and struct/dict
exceptions are mapped to explicit constructors: signatureMissing is the
export-time assert on self.signature, noSignerConfigured the sign-time
assert on self.signature_provider, emptySignature the assert on the
provider result, fieldOverflow a struct.error for an out-of-range integer,
packNoneError the struct.error raised when None is passed for a bytes
field, packTypeError any other struct argument-type failure,
unsupportedVariant the registry KeyError, keyError the curve-map or
key-list lookup failure, invalidMetadataFlag the parse-time assert on
flags bit 31, truncatedInput a struct.error from unpack_from on a short
buffer, malformedSignature a DER-decoding failure of the raw signature. -/
inductive DCError
  | signatureMissing
  | noSignerConfigured
  | emptySignature
  | fieldOverflow
  | packNoneError
  | packTypeError
  | unsupportedVariant
  | keyError
  | invalidMetadataFlag
  | truncatedInput
  | malformedSignature
deriving DecidableEq, Repr

/-- One item of a struct format string. -/
inductive FmtItem
  | u16
  | u32
  | bytes (n : Nat)
deriving DecidableEq, Repr

/-- One argument passed to struct.pack: an int, a bytes object, or None. -/
inductive PackVal
  | int (v : Nat)
  | buf (b : List Nat)
  | noneVal
deriving DecidableEq, Repr

/-- struct.pack of a single item: H and L demand in-range ints, s demands
a bytes object (None raises struct.error) and truncates or zero-pads. -/
def packItem : FmtItem → PackVal → Except DCError (List Nat)
  | .u16, .int v => if v < 65536 then .ok (le16 v) else .error .fieldOverflow
  | .u32, .int v => if v < 4294967296 then .ok (le32 v) else .error .fieldOverflow
  | .bytes n, .buf b => .ok (padBytes n b)
  | .bytes _, .noneVal => .error .packNoneError
  | _, _ => .error .packTypeError

/-- struct.pack over a whole format, left to right. -/
def packFmt : List FmtItem → List PackVal → Except DCError (List Nat)
  | [], [] => .ok []
  | f :: fs, v :: vs => do
    let h ← packItem f v
    let t ← packFmt fs vs
    .ok (h ++ t)
  | _, _ => .error .packTypeError

/-- Byte size of one struct item. -/
def itemSize : FmtItem → Nat
  | .u16 => 2
  | .u32 => 4
  | .bytes n => n

/-- struct.calcsize of a format. -/
def calcsize (fmt : List FmtItem) : Nat := (fmt.map itemSize).sum

/-- The concrete credential variants of the registry: the five fixed-layout
classes plus the two Niobe4Analog (variable-layout) classes. -/
inductive Variant
  | rsa2048
  | rsa4096
  | ecc256
  | ecc384
  | ecc521
  | ecc256n4
  | ecc384n4
deriving DecidableEq, Repr

namespace Variant

/-- The VERSION class constant, as a (major, minor) pair. -/
def versionPair : Variant → Nat × Nat
  | .rsa2048 => (1, 0)
  | .rsa4096 => (1, 1)
  | .ecc256 => (2, 0)
  | .ecc384 => (2, 1)
  | .ecc521 => (2, 2)
  | .ecc256n4 => (2, 0)
  | .ecc384n4 => (2, 1)

/-- Membership in the Niobe4Analog (variable-layout) family. -/
def isN4 : Variant → Bool
  | .ecc256n4 | .ecc384n4 => true
  | _ => false

/-- Membership in the ECC class (DebugCredentialECC and its subclasses). -/
def isEcc : Variant → Bool
  | .rsa2048 | .rsa4096 => false
  | _ => true

/-- CORD_LENGTH class constant: 66 on DebugCredentialECC (not overridden
by the fixed ECC256/384/521 subclasses), 32 and 48 on the N4 subclasses;
unused (0) for RSA. -/
def CORD_LENGTH : Variant → Nat
  | .ecc256 | .ecc384 | .ecc521 => 66
  | .ecc256n4 => 32
  | .ecc384n4 => 48
  | _ => 0

/-- HASH_LENGTH class constant of the N4 subclasses (0 elsewhere). -/
def HASH_LENGTH : Variant → Nat
  | .ecc256n4 => 32
  | .ecc384n4 => 48
  | _ => 0

/-- KEY_LENGTH class constant of the N4 subclasses (0 elsewhere). -/
def KEY_LENGTH : Variant → Nat
  | .ecc256n4 => 256
  | .ecc384n4 => 384
  | _ => 0

/-- Byte width of the rot_meta field in the fixed-family formats. -/
def rotMetaSize : Variant → Nat
  | .rsa2048 | .rsa4096 => 128
  | _ => 528

/-- Byte width of the dck_pub field in the fixed-family formats. -/
def dckSize : Variant → Nat
  | .rsa2048 => 260
  | .rsa4096 => 516
  | _ => 132

/-- Byte width of the rot_pub field in the fixed-family formats. -/
def rotPubSize : Variant → Nat
  | .rsa2048 => 260
  | .rsa4096 => 516
  | _ => 4

/-- Byte width of the signature field in the fixed-family formats. -/
def sigSize : Variant → Nat
  | .rsa2048 => 256
  | .rsa4096 => 512
  | _ => 132

end Variant

/-- The _version_mapping dict: fixed-family registry keyed by version. -/
def version_mapping : String → Option Variant
  | "1.0" => some .rsa2048
  | "1.1" => some .rsa4096
  | "2.0" => some .ecc256
  | "2.1" => some .ecc384
  | "2.2" => some .ecc521
  | _ => none

/-- The _n4analog_version_mapping dict: variable-family registry. -/
def n4analog_version_mapping : String → Option Variant
  | "2.0" => some .ecc256n4
  | "2.1" => some .ecc384n4
  | _ => none

/-- DebugCredential._get_class: socc 4 selects the N4 registry, anything
else the fixed registry; a missing key (Python KeyError) is the
unsupported-variant failure. -/
def get_class (version : String) (socc : Nat) : Except DCError Variant :=
  if socc == 4 then
    match n4analog_version_mapping version with
    | some v => .ok v
    | none => .error .unsupportedVariant
  else
    match version_mapping version with
    | some v => .ok v
    | none => .error .unsupportedVariant

/-- The version string "{}.{}".format(major, minor). -/
def mkVersionStr (ma mi : Nat) : String :=
  toString ma ++ "." ++ toString mi

/-- The DebugCredential instance attributes.  The signature provider is an
opaque external capability, modelled as a Nat reference resolved through
an environment; signature is None until signing. -/
structure DebugCredential where
  socc : Nat
  uuid : List Nat
  rot_meta : List Nat
  dck_pub : List Nat
  cc_socu : Nat
  cc_vu : Nat
  cc_beacon : Nat
  rot_pub : List Nat
  signature : Option (List Nat) := none
  signature_provider : Option Nat := none
deriving DecidableEq, Repr

/-- An ECC public key as the Key-Material Adapter hands it over: bit
length plus the affine coordinates. -/
structure ECPublicKey where
  key_size : Nat
  x : Nat
  y : Nat
deriving DecidableEq, Repr

/-- An RSA public key: bit length, modulus and exponent. -/
structure RSAPublicKey where
  key_size : Nat
  modulus : Nat
  exponent : Nat
deriving DecidableEq, Repr

/-- Modelled from the spec: ecc_key_to_bytes lives in spsdk.dat.utils,
which is not among the sources; per section 4.2 the encoding is the
concatenation of the X and Y affine coordinates, each zero-padded to the
given coordinate byte length. -/
def ecc_key_to_bytes (k : ECPublicKey) (length : Nat) : List Nat :=
  beBytes length k.x ++ beBytes length k.y

/-- Modelled from the spec: rsa_key_to_bytes lives in spsdk.dat.utils,
which is not among the sources; per section 4.2 the encoding is the
exponent padded to exp_length followed by the modulus at a fixed width,
the key byte size when no explicit modulus length is given. -/
def rsa_key_to_bytes (k : RSAPublicKey) (exp_length : Nat)
    (modulus_length : Option Nat) : List Nat :=
  beBytes exp_length k.exponent ++ beBytes (modulus_length.getD (k.key_size / 8)) k.modulus

/-- Modelled from the spec: ecc_public_numbers_to_bytes lives in
spsdk.dat.utils, which is not among the sources; per section 4.4 the r
and s integers are re-encoded as fixed-width big-endian strings, each
zero-padded to the coordinate length, and concatenated. -/
def ecc_public_numbers_to_bytes (r s length : Nat) : List Nat :=
  beBytes length r ++ beBytes length s

/-- DebugCredentialRSA._get_rot_meta: a zero bytearray of 128 bytes, with
the 32-byte digest of each key's encoding slice-assigned at stride 32.
The digest function internal_backend.hash (SHA-256) is an external
backend, passed as an opaque parameter. -/
def get_rot_meta_rsa (hash : List Nat → List Nat)
    (rot_pub_keys : List RSAPublicKey) : List Nat :=
  rot_pub_keys.enum.foldl
    (fun acc iv =>
      writeSlice acc (iv.1 * 32) ((iv.1 + 1) * 32) (hash (rsa_key_to_bytes iv.2 3 none)))
    (List.replicate 128 0)

/-- DebugCredentialECC._get_rot_meta: a zero bytearray of 528 bytes, with
each key's 132-byte encoding (ecc_key_to_bytes at coordinate length 66)
slice-assigned at stride 132.  No digest is computed here. -/
def get_rot_meta_ecc (rot_pub_keys : List ECPublicKey) : List Nat :=
  rot_pub_keys.enum.foldl
    (fun acc iv =>
      writeSlice acc (iv.1 * 132) ((iv.1 + 1) * 132) (ecc_key_to_bytes iv.2 66))
    (List.replicate 528 0)

/-- N4AnalogMixin.create_ctrk_table: empty for a single key, otherwise the
concatenation, over all keys, of the digest of each key's natural-width
encoding, hashed with the algorithm selected by that key's bit length
(sha-key_size).  The digest backend is the opaque parameter hashAlg,
keyed by algorithm bit length. -/
def create_ctrk_table (hashAlg : Nat → List Nat → List Nat)
    (rot_pub_keys : List ECPublicKey) : List Nat :=
  if rot_pub_keys.length == 1 then []
  else
    rot_pub_keys.foldl
      (fun acc k => acc ++ hashAlg k.key_size (ecc_key_to_bytes k (k.key_size / 8)))
      []

/-- N4AnalogMixin.calculate_flags: bit 31 set, the selected key index in
bits 8 and up, the key count in bits 4 and up, packed little-endian. -/
def calculate_flags (used_root_cert : Nat) (rot_pub_keys : List ECPublicKey) :
    Except DCError (List Nat) :=
  packItem .u32 (.int (((1 <<< 31) ||| (used_root_cert <<< 8)) ||| (rot_pub_keys.length <<< 4)))

/-- N4AnalogMixin._get_rot_meta: flags word followed by the CTRK table. -/
def get_rot_meta_n4 (hashAlg : Nat → List Nat → List Nat) (used_root_cert : Nat)
    (rot_pub_keys : List ECPublicKey) : Except DCError (List Nat) := do
  let ctrk := create_ctrk_table hashAlg rot_pub_keys
  let flags ← calculate_flags used_root_cert rot_pub_keys
  .ok (flags ++ ctrk)

/-- The curve-identifier dict of DebugCredentialECC._get_rot_pub.  The
source literally maps key size 386 (not 384) to identifier 2; any other
size raises a KeyError. -/
def curve_index (key_size : Nat) : Option Nat :=
  if key_size == 256 then some 1
  else if key_size == 386 then some 2
  else if key_size == 521 then some 3
  else none

/-- DebugCredentialRSA._get_rot_pub: the full encoding of the selected
key (exponent padded to 4 bytes, then the modulus). -/
def get_rot_pub_rsa (rot_pub_id : Nat) (rot_pub_keys : List RSAPublicKey) :
    Except DCError (List Nat) :=
  match rot_pub_keys[rot_pub_id]? with
  | none => .error .keyError
  | some k => .ok (rsa_key_to_bytes k 4 none)

/-- DebugCredentialECC._get_rot_pub: the compact pair pack('<2H',
rot_pub_id, curve_index) for the fixed ECC family. -/
def get_rot_pub_ecc_fixed (rot_pub_id : Nat) (rot_pub_keys : List ECPublicKey) :
    Except DCError (List Nat) :=
  match rot_pub_keys[rot_pub_id]? with
  | none => .error .keyError
  | some k =>
    match curve_index k.key_size with
    | none => .error .keyError
    | some ci => packFmt [.u16, .u16] [.int rot_pub_id, .int ci]

/-- N4AnalogMixin._get_rot_pub: the full natural-width encoding of the
selected key for the variable family. -/
def get_rot_pub_n4 (rot_pub_id : Nat) (rot_pub_keys : List ECPublicKey) :
    Except DCError (List Nat) :=
  match rot_pub_keys[rot_pub_id]? with
  | none => .error .keyError
  | some k => .ok (ecc_key_to_bytes k (k.key_size / 8))

/-- The fixed-family FORMAT_NO_SIG as a struct item list. -/
def fixedFormatNoSig (v : Variant) : List FmtItem :=
  [.u16, .u16, .u32, .bytes 16, .bytes v.rotMetaSize, .bytes v.dckSize,
   .u32, .u32, .u32, .bytes v.rotPubSize]

/-- The fixed-family FORMAT: FORMAT_NO_SIG plus the signature field. -/
def fixedFormat (v : Variant) : List FmtItem :=
  fixedFormatNoSig v ++ [.bytes v.sigSize]

/-- The N4 FORMAT_NO_SIG property: the rot_meta width is the runtime
length of the instance's rot_meta attribute. -/
def n4FormatNoSig (v : Variant) (rotMetaLen : Nat) : List FmtItem :=
  [.u16, .u16, .u32, .bytes 16, .u32, .u32, .u32, .bytes rotMetaLen,
   .bytes (v.HASH_LENGTH * 2), .bytes (v.HASH_LENGTH * 2)]

/-- The N4 FORMAT property: FORMAT_NO_SIG plus the signature field. -/
def n4Format (v : Variant) (rotMetaLen : Nat) : List FmtItem :=
  n4FormatNoSig v rotMetaLen ++ [.bytes (v.HASH_LENGTH * 2)]

/-- A possibly absent bytes attribute as a struct.pack argument. -/
def toPackVal : Option (List Nat) → PackVal
  | none => .noneVal
  | some b => .buf b

/-- The signature bytes of a credential, empty when unsigned. -/
def sigBytes (c : DebugCredential) : List Nat := c.signature.getD []

namespace DebugCredential

/-- DebugCredential.export: the assert on self.signature (falsy for both
None and empty bytes, i.e. exactly when sigBytes is empty) precedes the
pack of the full FORMAT. -/
def exportBase (v : Variant) (c : DebugCredential) : Except DCError (List Nat) :=
  if sigBytes c = [] then .error .signatureMissing
  else
    packFmt (fixedFormat v)
      [.int v.versionPair.1, .int v.versionPair.2, .int c.socc, .buf c.uuid,
       .buf c.rot_meta, .buf c.dck_pub, .int c.cc_socu, .int c.cc_vu,
       .int c.cc_beacon, .buf c.rot_pub, .buf (sigBytes c)]

/-- N4AnalogMixin.export: packs the reordered variable-family layout with
no signature check; an absent signature reaches struct.pack as None. -/
def exportN4 (v : Variant) (c : DebugCredential) : Except DCError (List Nat) :=
  packFmt (n4Format v c.rot_meta.length)
    [.int v.versionPair.1, .int v.versionPair.2, .int c.socc, .buf c.uuid,
     .int c.cc_socu, .int c.cc_vu, .int c.cc_beacon, .buf c.rot_meta,
     .buf c.rot_pub, .buf c.dck_pub, toPackVal c.signature]

/-- Dynamic dispatch of the export method by variant family. -/
def exportDC (v : Variant) (c : DebugCredential) : Except DCError (List Nat) :=
  if v.isN4 then c.exportN4 v else c.exportBase v

/-- DebugCredential._get_data_to_sign: the FORMAT_NO_SIG pack. -/
def getDataToSignFixed (v : Variant) (c : DebugCredential) : Except DCError (List Nat) :=
  packFmt (fixedFormatNoSig v)
    [.int v.versionPair.1, .int v.versionPair.2, .int c.socc, .buf c.uuid,
     .buf c.rot_meta, .buf c.dck_pub, .int c.cc_socu, .int c.cc_vu,
     .int c.cc_beacon, .buf c.rot_pub]

/-- N4AnalogMixin._get_data_to_sign: the reordered FORMAT_NO_SIG pack. -/
def getDataToSignN4 (v : Variant) (c : DebugCredential) : Except DCError (List Nat) :=
  packFmt (n4FormatNoSig v c.rot_meta.length)
    [.int v.versionPair.1, .int v.versionPair.2, .int c.socc, .buf c.uuid,
     .int c.cc_socu, .int c.cc_vu, .int c.cc_beacon, .buf c.rot_meta,
     .buf c.rot_pub, .buf c.dck_pub]

/-- Dynamic dispatch of _get_data_to_sign by variant family. -/
def getDataToSign (v : Variant) (c : DebugCredential) : Except DCError (List Nat) :=
  if v.isN4 then c.getDataToSignN4 v else c.getDataToSignFixed v

/-- DebugCredential.sign: assert the provider, collect the data to sign,
invoke the provider (the environment sp resolves the opaque reference),
assert the result non-empty, store it. -/
def signBase (sp : Nat → List Nat → List Nat) (v : Variant) (c : DebugCredential) :
    Except DCError DebugCredential :=
  match c.signature_provider with
  | none => .error .noSignerConfigured
  | some p => do
    let data ← c.getDataToSign v
    let s := sp p data
    if s.isEmpty then .error .emptySignature
    else .ok { c with signature := some s }

/-- DebugCredentialECC.sign: the base sign, then DER-decoding of the raw
signature into (r, s) (decode models crypto decode_dss_signature; a
failure is the malformed-signature error) and fixed-width re-encoding at
the variant's CORD_LENGTH. -/
def signECC (sp : Nat → List Nat → List Nat) (decode : List Nat → Option (Nat × Nat))
    (v : Variant) (c : DebugCredential) : Except DCError DebugCredential := do
  let c' ← c.signBase sp v
  match decode (sigBytes c') with
  | none => .error .malformedSignature
  | some rs => .ok { c' with signature := some (ecc_public_numbers_to_bytes rs.1 rs.2 v.CORD_LENGTH) }

/-- Dynamic dispatch of the sign method: every ECC-class variant,
including the N4 mixin, uses the ECC sign with signature normalization;
RSA uses the base sign unchanged. -/
def signDC (sp : Nat → List Nat → List Nat) (decode : List Nat → Option (Nat × Nat))
    (v : Variant) (c : DebugCredential) : Except DCError DebugCredential :=
  if v.isEcc then c.signECC sp decode v else c.signBase sp v

/-- A credential with the signature-provider reference removed. -/
def clearProvider (c : DebugCredential) : DebugCredential :=
  { c with signature_provider := none }

/-- DebugCredential.__eq__: vars(self) == vars(other), i.e. every
attribute compared, the signature provider included. -/
def eqBase (a b : DebugCredential) : Bool := decide (a = b)

/-- N4AnalogMixin.__eq__: del vars(self)['signature_provider'] and
del vars(other)['signature_provider'] mutate both instance dicts before
comparing; the comparison result and both post-states are returned
(attribute deletion is modelled as clearing the provider reference, and
a later sign() fails on either modelling). -/
def eqN4 (a b : DebugCredential) : Bool × DebugCredential × DebugCredential :=
  let a' := a.clearProvider
  let b' := b.clearProvider
  (decide (a' = b'), a', b')

end DebugCredential

/-- Attribute-wise comparison of every field except the signature
provider: the equality the specification describes, stated from the
spec's words for comparison against the source's eqBase and eqN4. -/
def fieldsEqExceptProvider (a b : DebugCredential) : Bool :=
  a.socc == b.socc && a.uuid == b.uuid && a.rot_meta == b.rot_meta &&
  a.dck_pub == b.dck_pub && a.cc_socu == b.cc_socu && a.cc_vu == b.cc_vu &&
  a.cc_beacon == b.cc_beacon && a.rot_pub == b.rot_pub && a.signature == b.signature

/-- DebugCredential.parse after class resolution, for a fixed-family
class: one unpack_from of the full FORMAT at the given offset, the
version fields discarded, the rest passed positionally to the
constructor. -/
def parseFixed (v : Variant) (data : List Nat) (off : Nat) :
    Except DCError DebugCredential :=
  if data.length < off + calcsize (fixedFormat v) then .error .truncatedInput
  else
    .ok { socc := asLE (slice data (off + 4) 4)
          uuid := slice data (off + 8) 16
          rot_meta := slice data (off + 24) v.rotMetaSize
          dck_pub := slice data (off + 24 + v.rotMetaSize) v.dckSize
          cc_socu := asLE (slice data (off + 24 + v.rotMetaSize + v.dckSize) 4)
          cc_vu := asLE (slice data (off + 28 + v.rotMetaSize + v.dckSize) 4)
          cc_beacon := asLE (slice data (off + 32 + v.rotMetaSize + v.dckSize) 4)
          rot_pub := slice data (off + 36 + v.rotMetaSize + v.dckSize) v.rotPubSize
          signature := some (slice data (off + 36 + v.rotMetaSize + v.dckSize + v.rotPubSize) v.sigSize)
          signature_provider := none }

/-- The tail unpack of N4AnalogMixin.parse: rot_pub, dck_pub and
signature, each two hash lengths wide, at offset + 40 + len(rot_meta) - 4. -/
def parseN4tail (v : Variant) (data : List Nat) (off : Nat) (rot_meta : List Nat)
    (socc : Nat) (uuid : List Nat) (cc_socu cc_vu beacon : Nat) :
    Except DCError DebugCredential :=
  if data.length < off + 40 + rot_meta.length - 4 + 6 * v.HASH_LENGTH then
    .error .truncatedInput
  else
    .ok { socc := socc
          uuid := uuid
          rot_meta := rot_meta
          dck_pub := slice data (off + 40 + rot_meta.length - 4 + 2 * v.HASH_LENGTH) (2 * v.HASH_LENGTH)
          cc_socu := cc_socu
          cc_vu := cc_vu
          cc_beacon := beacon
          rot_pub := slice data (off + 40 + rot_meta.length - 4) (2 * v.HASH_LENGTH)
          signature := some (slice data (off + 40 + rot_meta.length - 4 + 4 * v.HASH_LENGTH) (2 * v.HASH_LENGTH))
          signature_provider := none }

/-- N4AnalogMixin.parse: the fixed head "<2HL16s4L" is unpacked with no
offset argument, i.e. from absolute position 0 of the buffer; the flags
bit-31 assert; the CTRK table (record count times the hash length, read
only when the count exceeds 1) and the tail are unpacked relative to the
offset argument. -/
def parseN4 (v : Variant) (data : List Nat) (off : Nat) :
    Except DCError DebugCredential :=
  if data.length < 40 then .error .truncatedInput
  else if asLE (slice data 36 4) &&& 2147483648 == 0 then .error .invalidMetadataFlag
  else if 1 < (asLE (slice data 36 4) &&& 240) >>> 4 then
    if data.length < off + 40 + ((asLE (slice data 36 4) &&& 240) >>> 4) * v.HASH_LENGTH then
      .error .truncatedInput
    else
      parseN4tail v data off
        (le32 (asLE (slice data 36 4)) ++
          slice data (off + 40) (((asLE (slice data 36 4) &&& 240) >>> 4) * v.HASH_LENGTH))
        (asLE (slice data 4 4)) (slice data 8 16) (asLE (slice data 24 4))
        (asLE (slice data 28 4)) (asLE (slice data 32 4))
  else
    parseN4tail v data off (le32 (asLE (slice data 36 4)))
      (asLE (slice data 4 4)) (slice data 8 16) (asLE (slice data 24 4))
      (asLE (slice data 28 4)) (asLE (slice data 32 4))

/-- The tail of DebugCredential.parse once the registry lookup result is
known: on an N4 class the FORMAT attribute accessed on the class object
is a property object rather than a string, so struct raises a type error
before any field is read; on a fixed class the full FORMAT is unpacked. -/
def parseTopDispatch (r : Except DCError Variant) (data : List Nat) (off : Nat) :
    Except DCError (Variant × DebugCredential) :=
  match r with
  | .error e => .error e
  | .ok v =>
    if v.isN4 then .error .packTypeError
    else (parseFixed v data off).map (fun c => (v, c))

/-- DebugCredential.parse: version and SoC class sniffed from the buffer,
class resolved through the registry, then the class FORMAT unpacked. -/
def parseTop (data : List Nat) (off : Nat) :
    Except DCError (Variant × DebugCredential) :=
  if data.length < off + 4 then .error .truncatedInput
  else if data.length < off + 8 then .error .truncatedInput
  else
    parseTopDispatch
      (get_class (mkVersionStr (asLE (slice data off 2)) (asLE (slice data (off + 2) 2)))
        (asLE (slice data (off + 4) 4)))
      data off

/-- The flags word a variable-family credential carries in the first four
bytes of its rot_meta attribute. -/
def n4flags (c : DebugCredential) : Nat := asLE (slice c.rot_meta 0 4)

/-- The CTRK record count encoded in bits 7..4 of the flags word. -/
def n4records (c : DebugCredential) : Nat := (n4flags c &&& 240) >>> 4

/-- Validity of a built-and-signed fixed-family credential: integer
fields in 32-bit range, the SoC class outside the variable family (the
builder dispatches on it), every buffer at its exact wire width, and a
signature present at the exact signature width. -/
def wellFormedFixed (v : Variant) (c : DebugCredential) : Prop :=
  v.isN4 = false ∧ c.socc ≠ 4 ∧ c.socc < 4294967296 ∧
  c.cc_socu < 4294967296 ∧ c.cc_vu < 4294967296 ∧ c.cc_beacon < 4294967296 ∧
  c.uuid.length = 16 ∧ c.rot_meta.length = v.rotMetaSize ∧
  c.dck_pub.length = v.dckSize ∧ c.rot_pub.length = v.rotPubSize ∧
  c.signature.isSome = true ∧ (sigBytes c).length = v.sigSize

/-- Validity of a built-and-signed variable-family credential: integer
fields in range, rot_meta beginning with a genuine little-endian flags
word with bit 31 set whose record-count nibble matches the CTRK tail,
and the three tail buffers at twice the hash length. -/
def wellFormedN4 (v : Variant) (c : DebugCredential) : Prop :=
  v.isN4 = true ∧ c.socc < 4294967296 ∧
  c.cc_socu < 4294967296 ∧ c.cc_vu < 4294967296 ∧ c.cc_beacon < 4294967296 ∧
  c.uuid.length = 16 ∧
  c.rot_meta.take 4 = le32 (n4flags c) ∧
  n4flags c &&& 2147483648 ≠ 0 ∧
  (1 < n4records c → (c.rot_meta.drop 4).length = n4records c * v.HASH_LENGTH) ∧
  (¬ 1 < n4records c → c.rot_meta.drop 4 = []) ∧
  c.rot_pub.length = 2 * v.HASH_LENGTH ∧ c.dck_pub.length = 2 * v.HASH_LENGTH ∧
  c.signature.isSome = true ∧ (sigBytes c).length = 2 * v.HASH_LENGTH

instance (v : Variant) (c : DebugCredential) : Decidable (wellFormedFixed v c) := by
  unfold wellFormedFixed
  infer_instance

instance (v : Variant) (c : DebugCredential) : Decidable (wellFormedN4 v c) := by
  unfold wellFormedN4
  infer_instance

/-! Helper lemmas about the byte-level primitives. -/

theorem le16_length (v : Nat) : (le16 v).length = 2 := rfl

theorem le32_length (v : Nat) : (le32 v).length = 4 := rfl

theorem asLE_le16 (v : Nat) : asLE (le16 v) = v % 65536 := by
  simp [le16, asLE]; omega

theorem asLE_le16_of_lt {v : Nat} (h : v < 65536) : asLE (le16 v) = v := by
  rw [asLE_le16, Nat.mod_eq_of_lt h]

theorem asLE_le32 (v : Nat) : asLE (le32 v) = v % 4294967296 := by
  simp [le32, asLE]; omega

theorem asLE_le32_of_lt {v : Nat} (h : v < 4294967296) : asLE (le32 v) = v := by
  rw [asLE_le32, Nat.mod_eq_of_lt h]

theorem beBytes_length (n v : Nat) : (beBytes n v).length = n := by
  induction n generalizing v with
  | zero => rfl
  | succ n ih => simp [beBytes, ih]

theorem padBytes_of_length {n : Nat} {b : List Nat} (h : b.length = n) :
    padBytes n b = b := by
  unfold padBytes
  rw [h, Nat.sub_self, List.replicate_zero, List.append_nil, ← h, List.take_length]

theorem drop_chain {l s t : List Nat} {a n : Nat} (hd : l.drop a = s ++ t)
    (hs : s.length = n) : l.drop (a + n) = t := by
  rw [← List.drop_drop, hd, List.drop_left' hs]

theorem take_of_drop {l s t : List Nat} {a k : Nat} (hd : l.drop a = s ++ t)
    (hs : s.length = k) : slice l a k = s := by
  simp only [slice]
  rw [hd, List.take_left' hs]

theorem packItem_u16 {v : Nat} (h : v < 65536) :
    packItem .u16 (.int v) = .ok (le16 v) := by
  simp [packItem, h]

theorem packItem_u32 {v : Nat} (h : v < 4294967296) :
    packItem .u32 (.int v) = .ok (le32 v) := by
  simp [packItem, h]

theorem packItem_bytes {n : Nat} {b : List Nat} (h : b.length = n) :
    packItem (.bytes n) (.buf b) = .ok b := by
  simp [packItem, padBytes_of_length h]

theorem packFmt_nil : packFmt [] [] = .ok [] := rfl

theorem packFmt_cons {f : FmtItem} {fs : List FmtItem} {v : PackVal}
    {vs : List PackVal} {h t : List Nat}
    (hh : packItem f v = .ok h) (ht : packFmt fs vs = .ok t) :
    packFmt (f :: fs) (v :: vs) = .ok (h ++ t) := by
  simp only [packFmt, hh, ht]
  rfl

theorem versionPair_lt (v : Variant) :
    v.versionPair.1 < 65536 ∧ v.versionPair.2 < 65536 := by
  cases v <;> decide

theorem sigSize_pos (v : Variant) : 0 < v.sigSize := by
  cases v <;> decide

theorem slice_length_of_le {data : List Nat} {o k : Nat}
    (h : o + k ≤ data.length) : (slice data o k).length = k := by
  simp [slice]
  omega

theorem flags_value : ∀ i < 16, ∀ n < 16,
    ((1 <<< 31) ||| (i <<< 8)) ||| (n <<< 4) = 2147483648 + 256 * i + 16 * n := by
  decide

theorem flags_bit31 : ∀ i < 16, ∀ n < 16,
    (2147483648 + 256 * i + 16 * n).testBit 31 = true := by
  decide

/-! Claim theorems. -/

/-- Claim C8: variant resolution is a two-level dispatch: SoC class 4
selects the variable-layout registry keyed by version, every other SoC
class selects the fixed-layout registry keyed purely by version, version
2.0 resolves to a different descriptor in each family (with different
layouts: the fixed one packs rot_pub in 4 bytes, the variable one in 64),
and an unmatched pair such as version 9.9 with SoC class 1 fails with the
unsupported-variant error. -/
theorem claim_C8 :
    (∀ (ver : String) (socc : Nat), socc ≠ 4 →
      get_class ver socc = (match version_mapping ver with
        | some v => .ok v
        | none => .error .unsupportedVariant)) ∧
    (∀ ver : String, get_class ver 4 = (match n4analog_version_mapping ver with
        | some v => .ok v
        | none => .error .unsupportedVariant)) ∧
    get_class "2.0" 1 = .ok .ecc256 ∧
    get_class "2.0" 4 = .ok .ecc256n4 ∧
    Variant.ecc256 ≠ Variant.ecc256n4 ∧
    Variant.ecc256.rotPubSize = 4 ∧
    2 * Variant.ecc256n4.HASH_LENGTH = 64 ∧
    get_class "9.9" 1 = .error .unsupportedVariant := by
  refine ⟨?_, ?_, rfl, rfl, by decide, rfl, rfl, rfl⟩
  · intro ver socc h
    simp [get_class, h]
  · intro ver
    simp [get_class]

/-- Witness for claim C8 at concrete inputs: SoC class 7 resolves through
the fixed registry, version 1.0 giving the RSA-2048 descriptor. -/
theorem claim_C8_witness :
    get_class "1.0" 7 = .ok .rsa2048 ∧
    get_class "9.9" 1 = .error .unsupportedVariant :=
  ⟨claim_C8.1 "1.0" 7 (by decide), claim_C8.2.2.2.2.2.2.2⟩

/-- Claim C9: the variable-family equality is not read-only: it strips
the signature-provider reference from both operands' state, so after any
equality test neither post-state has a signer attached and a subsequent
sign of either post-state fails with the no-signer error, whatever the
provider environment, decoder and variant. -/
theorem claim_C9 : ∀ (a b : DebugCredential) (sp : Nat → List Nat → List Nat)
    (decode : List Nat → Option (Nat × Nat)) (v : Variant),
    (a.eqN4 b).2.1.signature_provider = none ∧
    (a.eqN4 b).2.2.signature_provider = none ∧
    (a.eqN4 b).2.1.signDC sp decode v = .error .noSignerConfigured ∧
    (a.eqN4 b).2.2.signDC sp decode v = .error .noSignerConfigured := by
  intro a b sp decode v
  have key : ∀ c : DebugCredential, c.signature_provider = none →
      c.signDC sp decode v = .error .noSignerConfigured := by
    intro c hc
    unfold DebugCredential.signDC DebugCredential.signECC DebugCredential.signBase
    rw [hc]
    cases v.isEcc <;> rfl
  exact ⟨rfl, rfl, key _ rfl, key _ rfl⟩

def c7keys : List ECPublicKey := [⟨256, 0, 0⟩, ⟨256, 0, 0⟩, ⟨256, 0, 0⟩]

/-- Counterexample to claim C7: for a variable-family build with 3 RoT
keys and selected index 1 the little-endian flags word decodes to
0x8000_0130, not the 0x8000_0132 the claim asserts. -/
theorem claim_C7_counterexample :
    (calculate_flags 1 c7keys).map asLE = .ok 0x80000130 ∧
    (0x80000130 : Nat) ≠ 0x80000132 := by
  exact ⟨rfl, by decide⟩

/-- Claim C7 (amended): for every variable-family build with selected key
index i and key count n, both at most 15, the packed 32-bit little-endian
flags word equals bit 31 + (i shifted to bits 11..8) + (n shifted to bits
7..4); bit 31 is always set and the two nibbles decode back to i and n.
For 3 keys and selected index 1 this is 0x8000_0130 (the claim's
0x8000_0132 is off by 2 in the reserved low nibble). -/
theorem claim_C7_amended : ∀ (i : Nat) (keys : List ECPublicKey),
    i ≤ 15 → keys.length ≤ 15 →
    (calculate_flags i keys).map asLE = .ok (2147483648 + 256 * i + 16 * keys.length) ∧
    (2147483648 + 256 * i + 16 * keys.length).testBit 31 = true ∧
    (2147483648 + 256 * i + 16 * keys.length) / 256 % 16 = i ∧
    (2147483648 + 256 * i + 16 * keys.length) / 16 % 16 = keys.length := by
  intro i keys hi hn
  have hv := flags_value i (by omega) keys.length (by omega)
  refine ⟨?_, flags_bit31 i (by omega) keys.length (by omega), by omega, by omega⟩
  unfold calculate_flags
  rw [hv, packItem_u32 (by omega)]
  simp [Except.map, asLE_le32_of_lt (show 2147483648 + 256 * i + 16 * keys.length < 4294967296 by omega)]

/-- Witness for the amended claim C7 at index 1 with three keys. -/
theorem claim_C7_witness :
    (calculate_flags 1 c7keys).map asLE = .ok (2147483648 + 256 * 1 + 16 * c7keys.length) ∧
    (2147483648 + 256 * 1 + 16 * c7keys.length).testBit 31 = true :=
  ⟨(claim_C7_amended 1 c7keys (by decide) (by decide)).1,
   (claim_C7_amended 1 c7keys (by decide) (by decide)).2.1⟩

def c6cred : DebugCredential :=
  { socc := 4, uuid := List.replicate 16 0, rot_meta := [16, 0, 0, 128],
    dck_pub := List.replicate 64 0, cc_socu := 0, cc_vu := 0, cc_beacon := 0,
    rot_pub := List.replicate 64 0 }

/-- Counterexample to claim C6: on a variable-family credential with no
signature, export fails with the pack-None type error, not with the
signature-missing error: the variable-family export override drops the
signature check and struct.pack receives None for the signature field. -/
theorem claim_C6_counterexample :
    c6cred.signature = none ∧
    c6cred.exportDC .ecc256n4 = .error .packNoneError ∧
    DCError.packNoneError ≠ DCError.signatureMissing :=
  ⟨rfl, rfl, by decide⟩

/-- Claim C6 (amended): export of an unsigned credential with in-range
integer fields always fails and produces no bytes, with the
signature-missing error on the fixed family but with the pack-None type
error on the variable family, whose export override omits the signature
check. -/
theorem claim_C6_amended : ∀ (v : Variant) (c : DebugCredential),
    c.signature = none →
    c.socc < 4294967296 → c.cc_socu < 4294967296 → c.cc_vu < 4294967296 →
    c.cc_beacon < 4294967296 →
    c.exportDC v = .error (if v.isN4 then .packNoneError else .signatureMissing) := by
  intro v c hs h1 h2 h3 h4
  unfold DebugCredential.exportDC
  cases hv : v.isN4 with
  | false =>
    rw [if_neg (show ¬ (false = true) by simp)]
    unfold DebugCredential.exportBase
    rw [if_pos (by simp [sigBytes, hs])]
    rfl
  | true =>
    rw [if_pos rfl]
    unfold DebugCredential.exportN4
    have hm := versionPair_lt v
    simp only [n4Format, n4FormatNoSig, packFmt, packItem, hs, toPackVal,
      if_pos h1, if_pos h2, if_pos h3, if_pos h4, if_pos hm.1, if_pos hm.2,
      List.cons_append, List.nil_append]
    rfl

/-- Witness for the amended claim C6: the same unsigned credential fails
with signature-missing through the fixed-family export and with the
pack-None error through the variable-family export. -/
theorem claim_C6_witness :
    c6cred.exportDC .rsa2048 = .error .signatureMissing ∧
    c6cred.exportDC .ecc256n4 = .error .packNoneError :=
  ⟨claim_C6_amended .rsa2048 c6cred rfl (by decide) (by decide) (by decide) (by decide),
   claim_C6_amended .ecc256n4 c6cred rfl (by decide) (by decide) (by decide) (by decide)⟩

theorem bind_ok_inv {α β : Type} {x : Except DCError α} {f : α → Except DCError β}
    {b : β} (h : (x >>= f) = .ok b) : ∃ a, x = .ok a ∧ f a = .ok b := by
  cases x with
  | error e => exact Except.noConfusion h
  | ok a => exact ⟨a, rfl, h⟩

def sp0 : Nat → List Nat → List Nat := fun _ _ => [1]

def decode0 : List Nat → Option (Nat × Nat) := fun _ => some (5, 7)

def c5cred : DebugCredential :=
  { socc := 1, uuid := [], rot_meta := [], dck_pub := [], cc_socu := 0,
    cc_vu := 0, cc_beacon := 0, rot_pub := [], signature_provider := some 0 }

/-- Counterexample to claim C5: signing through the fixed 256-bit ECC
variant stores a signature of 132 bytes, because CORD_LENGTH is 66 on
DebugCredentialECC and the fixed ECC subclasses do not override it; the
claim's curve-specific 32-byte coordinate width (64-byte signature) for a
256-bit curve does not hold in the fixed family. -/
theorem claim_C5_counterexample :
    (c5cred.signDC sp0 decode0 .ecc256).map (fun c => (sigBytes c).length) = .ok 132 ∧
    Variant.ecc256.CORD_LENGTH = 66 ∧
    (132 : Nat) ≠ 2 * 32 :=
  ⟨rfl, rfl, by decide⟩

/-- Claim C5 (amended): ECC signature normalization always stores exactly
2 * CORD_LENGTH bytes regardless of the magnitude of the decoded (r, s)
pair; but the coordinate width is not curve-specific in the fixed family:
it is 66 for all three fixed ECC variants, while for the variable family
it equals the variant's declared hash length (32 and 48). -/
theorem claim_C5_amended : ∀ (sp : Nat → List Nat → List Nat)
    (decode : List Nat → Option (Nat × Nat)) (v : Variant) (c c' : DebugCredential),
    v.isEcc = true → c.signDC sp decode v = .ok c' →
    (sigBytes c').length = 2 * v.CORD_LENGTH ∧
    c'.signature.isSome = true ∧
    Variant.ecc256.CORD_LENGTH = 66 ∧ Variant.ecc384.CORD_LENGTH = 66 ∧
    Variant.ecc521.CORD_LENGTH = 66 ∧
    Variant.ecc256n4.CORD_LENGTH = Variant.ecc256n4.HASH_LENGTH ∧
    Variant.ecc384n4.CORD_LENGTH = Variant.ecc384n4.HASH_LENGTH := by
  intro sp decode v c c' he h
  unfold DebugCredential.signDC at h
  rw [if_pos he] at h
  unfold DebugCredential.signECC at h
  obtain ⟨c₁, hb, hm⟩ := bind_ok_inv h
  cases hd : decode (sigBytes c₁) with
  | none => rw [hd] at hm; exact Except.noConfusion hm
  | some rs =>
    rw [hd] at hm
    have hc' : { c₁ with signature := some (ecc_public_numbers_to_bytes rs.1 rs.2 v.CORD_LENGTH) } = c' := by
      injection hm
    subst hc'
    refine ⟨?_, rfl, rfl, rfl, rfl, rfl, rfl⟩
    simp [sigBytes, ecc_public_numbers_to_bytes, beBytes_length]
    omega

/-- Witness for the amended claim C5: a concrete variable-family signing
run whose normalized signature length is twice the variant coordinate
width (here 96 bytes for the 384-bit variable variant). -/
theorem claim_C5_witness :
    (c5cred.signDC sp0 decode0 .ecc384n4).map (fun c => (sigBytes c).length)
      = .ok (2 * Variant.ecc384n4.CORD_LENGTH) := by
  have h : c5cred.signDC sp0 decode0 .ecc384n4
      = .ok { c5cred with signature := some (ecc_public_numbers_to_bytes 5 7 48) } := rfl
  rw [h]
  exact congrArg Except.ok (claim_C5_amended sp0 decode0 .ecc384n4 c5cred _ rfl h).1

theorem curve_index_lt {ks ci : Nat} (h : curve_index ks = some ci) : ci < 65536 := by
  unfold curve_index at h
  split_ifs at h <;> (injection h with h'; omega)

def k256 : ECPublicKey := ⟨256, 1, 2⟩

/-- Counterexample to claim C2: for a concrete 256-bit key, the
fixed-family ECC rot_pub is the 4-byte compact (index, curve-identifier)
pair, while the variable-family rot_pub is the full 64-byte public-key
encoding with both affine coordinates recoverable: the claim assigns the
two encodings to the opposite families. -/
theorem claim_C2_counterexample :
    get_rot_pub_ecc_fixed 0 [k256] = .ok (le16 0 ++ le16 1) ∧
    (le16 0 ++ le16 1).length = 4 ∧
    get_rot_pub_n4 0 [k256] = .ok (beBytes 32 1 ++ beBytes 32 2) ∧
    (beBytes 32 1 ++ beBytes 32 2).length = 64 ∧
    (4 : Nat) ≠ 64 :=
  ⟨rfl, rfl, rfl, rfl, by decide⟩

/-- Claim C2 (amended): rot_pub holds the full public-key encoding of the
selected key for the fixed RSA variants and for the variable (soc_class 4)
family, but the fixed ECC variants store only the compact (key-index,
curve-identifier) pair; the source curve map sends size 256 to 1, size
386 (a slip for 384, whose lookup fails) to 2, and size 521 to 3. -/
theorem claim_C2_amended :
    (∀ (i : Nat) (keys : List RSAPublicKey) (k : RSAPublicKey), keys[i]? = some k →
      get_rot_pub_rsa i keys = .ok (rsa_key_to_bytes k 4 none)) ∧
    (∀ (i : Nat) (keys : List ECPublicKey) (k : ECPublicKey) (ci : Nat),
      keys[i]? = some k → curve_index k.key_size = some ci → i < 65536 →
      get_rot_pub_ecc_fixed i keys = .ok (le16 i ++ le16 ci) ∧
      (le16 i ++ le16 ci).length = 4) ∧
    curve_index 256 = some 1 ∧ curve_index 386 = some 2 ∧
    curve_index 521 = some 3 ∧ curve_index 384 = none ∧
    (∀ (i : Nat) (keys : List ECPublicKey) (k : ECPublicKey), keys[i]? = some k →
      get_rot_pub_n4 i keys = .ok (ecc_key_to_bytes k (k.key_size / 8)) ∧
      (ecc_key_to_bytes k (k.key_size / 8)).length = 2 * (k.key_size / 8)) := by
  refine ⟨?_, ?_, rfl, rfl, rfl, rfl, ?_⟩
  · intro i keys k hk
    unfold get_rot_pub_rsa
    rw [hk]
  · intro i keys k ci hk hci hi
    unfold get_rot_pub_ecc_fixed
    simp only [hk]
    simp only [hci]
    constructor
    · have := packFmt_cons (packItem_u16 hi)
        (packFmt_cons (packItem_u16 (curve_index_lt hci)) packFmt_nil)
      simpa using this
    · simp [le16]
  · intro i keys k hk
    unfold get_rot_pub_n4
    rw [hk]
    refine ⟨rfl, ?_⟩
    simp [ecc_key_to_bytes, beBytes_length]
    omega

/-- Witness for the amended claim C2 at concrete keys: an RSA key, a
256-bit ECC key under the fixed map, and the same ECC key through the
variable-family path. -/
theorem claim_C2_witness :
    get_rot_pub_rsa 0 [(⟨2048, 3, 65537⟩ : RSAPublicKey)]
      = .ok (rsa_key_to_bytes ⟨2048, 3, 65537⟩ 4 none) ∧
    get_rot_pub_ecc_fixed 0 [k256] = .ok (le16 0 ++ le16 1) ∧
    get_rot_pub_n4 0 [k256] = .ok (ecc_key_to_bytes k256 (k256.key_size / 8)) :=
  ⟨claim_C2_amended.1 0 _ _ rfl,
   (claim_C2_amended.2.1 0 [k256] k256 1 rfl rfl (by decide)).1,
   (claim_C2_amended.2.2.2.2.2.2 0 [k256] k256 rfl).1⟩

theorem parseN4tail_ok_inv {v : Variant} {data : List Nat} {off : Nat}
    {rm : List Nat} {socc : Nat} {uuid : List Nat} {socu vu beacon : Nat}
    {c : DebugCredential}
    (h : parseN4tail v data off rm socc uuid socu vu beacon = .ok c) :
    off + 40 + rm.length - 4 + 6 * v.HASH_LENGTH ≤ data.length ∧
    c = { socc := socc, uuid := uuid, rot_meta := rm,
          dck_pub := slice data (off + 40 + rm.length - 4 + 2 * v.HASH_LENGTH) (2 * v.HASH_LENGTH),
          cc_socu := socu, cc_vu := vu, cc_beacon := beacon,
          rot_pub := slice data (off + 40 + rm.length - 4) (2 * v.HASH_LENGTH),
          signature := some (slice data (off + 40 + rm.length - 4 + 4 * v.HASH_LENGTH) (2 * v.HASH_LENGTH)),
          signature_provider := none } := by
  unfold parseN4tail at h
  split at h
  · exact Except.noConfusion h
  · rename_i hlen
    refine ⟨by omega, ?_⟩
    injection h with h'
    exact h'.symm

theorem parseN4_ok_inv {v : Variant} {data : List Nat} {off : Nat}
    {c : DebugCredential} (h : parseN4 v data off = .ok c) :
    40 ≤ data.length ∧
    asLE (slice data 36 4) &&& 2147483648 ≠ 0 ∧
    (1 < (asLE (slice data 36 4) &&& 240) >>> 4 →
      off + 40 + ((asLE (slice data 36 4) &&& 240) >>> 4) * v.HASH_LENGTH ≤ data.length) ∧
    c.rot_meta = le32 (asLE (slice data 36 4)) ++
      (if 1 < (asLE (slice data 36 4) &&& 240) >>> 4
       then slice data (off + 40) (((asLE (slice data 36 4) &&& 240) >>> 4) * v.HASH_LENGTH)
       else []) ∧
    c = { socc := asLE (slice data 4 4), uuid := slice data 8 16,
          rot_meta := c.rot_meta,
          dck_pub := slice data (off + 40 + c.rot_meta.length - 4 + 2 * v.HASH_LENGTH) (2 * v.HASH_LENGTH),
          cc_socu := asLE (slice data 24 4), cc_vu := asLE (slice data 28 4),
          cc_beacon := asLE (slice data 32 4),
          rot_pub := slice data (off + 40 + c.rot_meta.length - 4) (2 * v.HASH_LENGTH),
          signature := some (slice data (off + 40 + c.rot_meta.length - 4 + 4 * v.HASH_LENGTH) (2 * v.HASH_LENGTH)),
          signature_provider := none } := by
  unfold parseN4 at h
  split at h
  · exact Except.noConfusion h
  rename_i h40
  split at h
  · exact Except.noConfusion h
  rename_i hflag
  split at h
  · rename_i hrec
    split at h
    · exact Except.noConfusion h
    rename_i hlen2
    obtain ⟨hb, hc⟩ := parseN4tail_ok_inv h
    subst hc
    refine ⟨by omega, by simpa using hflag, fun _ => by omega, ?_, ?_⟩
    · rw [if_pos hrec]
    · rfl
  · rename_i hrec
    obtain ⟨hb, hc⟩ := parseN4tail_ok_inv h
    subst hc
    refine ⟨by omega, by simpa using hflag, fun hx => absurd hx hrec, ?_, ?_⟩
    · rw [if_neg hrec, List.append_nil]
    · rfl

theorem packItem_u32_inv {F : Nat} {bs : List Nat}
    (h : packItem .u32 (.int F) = .ok bs) : bs = le32 F := by
  have h' : (if F < 4294967296 then (Except.ok (le32 F) : Except DCError (List Nat))
      else .error .fieldOverflow) = .ok bs := h
  split at h'
  · injection h' with h''
    exact h''.symm
  · exact Except.noConfusion h'

theorem calculate_flags_ok_inv {i : Nat} {keys : List ECPublicKey} {bs : List Nat}
    (h : calculate_flags i keys = .ok bs) :
    bs = le32 (((1 <<< 31) ||| (i <<< 8)) ||| (keys.length <<< 4)) := by
  unfold calculate_flags at h
  exact packItem_u32_inv h

theorem keyLen_div_eight {v : Variant} (h : v.isN4 = true) :
    v.KEY_LENGTH / 8 = v.HASH_LENGTH := by
  cases v <;> revert h <;> decide

theorem foldl_append_const_length {α : Type} (g : α → List Nat) (H : Nat) :
    ∀ keys : List α, (∀ k ∈ keys, (g k).length = H) → ∀ acc : List Nat,
    (keys.foldl (fun a k => a ++ g k) acc).length = acc.length + keys.length * H := by
  intro keys
  induction keys with
  | nil => intro _ acc; simp
  | cons k ks ih =>
    intro hg acc
    simp only [List.foldl_cons]
    rw [ih (fun x hx => hg x (List.mem_cons_of_mem _ hx)) (acc ++ g k)]
    simp [hg k (List.mem_cons_self _ _), List.length_append]
    ring

def hash0 : Nat → List Nat → List Nat := fun sz _ => List.replicate (sz / 8) 0

def c4keys3 : List ECPublicKey := [⟨256, 0, 0⟩, ⟨256, 1, 1⟩, ⟨256, 2, 2⟩]

def c4data : List Nat :=
  List.replicate 36 0 ++ [48, 0, 0, 128] ++ List.replicate 288 7

/-- Counterexample to claim C4: with 3 RoT keys the CTRK table built by
create_ctrk_table is 3 * hash_length bytes (one digest per key, the
selected one included), not 2 * hash_length; and parsing a variable-family
buffer whose flags carry record count 3 consumes a 3 * hash_length CTRK
table, giving a 100-byte rot_meta rather than the claimed 68. -/
theorem claim_C4_counterexample :
    (create_ctrk_table hash0 c4keys3).length = 3 * 32 ∧
    (3 * 32 : Nat) ≠ 2 * 32 ∧
    (parseN4 .ecc256n4 c4data 0).map (fun c => c.rot_meta.length) = .ok (4 + 3 * 32) ∧
    (4 + 3 * 32 : Nat) ≠ 4 + 2 * 32 :=
  ⟨rfl, by decide, rfl, by decide⟩

/-- Claim C4 (amended): for the variable family, a single configured key
gives a rot_meta of exactly 4 bytes (flags only, no CTRK table); with
more than one key the CTRK table occupies exactly count * hash_length
bytes (not (count - 1) * hash_length) at build time, and parse likewise
consumes record-count * hash_length CTRK bytes, yielding a rot_meta of
4 + count * hash_length bytes. -/
theorem claim_C4_amended : ∀ (hashAlg : Nat → List Nat → List Nat) (v : Variant),
    v.isN4 = true →
    (∀ sz d, (hashAlg sz d).length = sz / 8) →
    (∀ (i : Nat) (keys : List ECPublicKey) (rm : List Nat), keys.length = 1 →
      get_rot_meta_n4 hashAlg i keys = .ok rm → rm.length = 4) ∧
    (∀ keys : List ECPublicKey, (∀ k ∈ keys, k.key_size = v.KEY_LENGTH) →
      1 < keys.length →
      (create_ctrk_table hashAlg keys).length = keys.length * v.HASH_LENGTH) ∧
    (∀ (data : List Nat) (off : Nat) (c : DebugCredential),
      parseN4 v data off = .ok c →
      c.rot_meta.length = 4 + (if 1 < (asLE (slice data 36 4) &&& 240) >>> 4
        then ((asLE (slice data 36 4) &&& 240) >>> 4) * v.HASH_LENGTH else 0)) := by
  intro hashAlg v hv hh
  refine ⟨?_, ?_, ?_⟩
  · intro i keys rm hk1 hok
    unfold get_rot_meta_n4 at hok
    obtain ⟨flags4, hcf, hrest⟩ := bind_ok_inv hok
    have hctrk : create_ctrk_table hashAlg keys = [] := by
      unfold create_ctrk_table
      rw [if_pos (by simp [hk1])]
    rw [hctrk] at hrest
    injection hrest with h'
    rw [← h', calculate_flags_ok_inv hcf]
    simp [le32_length]
  · intro keys hks hlen
    unfold create_ctrk_table
    rw [if_neg (by simp only [beq_iff_eq]; omega)]
    rw [foldl_append_const_length _ v.HASH_LENGTH keys ?_ []]
    · simp
    · intro k hk
      rw [hh, hks k hk, keyLen_div_eight hv]
  · intro data off c hp
    obtain ⟨-, -, hb, hrm, -⟩ := parseN4_ok_inv hp
    rw [hrm]
    by_cases hr : 1 < (asLE (slice data 36 4) &&& 240) >>> 4
    · rw [if_pos hr, if_pos hr, List.length_append, le32_length,
        slice_length_of_le (hb hr)]
    · rw [if_neg hr, if_neg hr, List.length_append, le32_length]
      rfl

def c4parsed : DebugCredential :=
  { socc := 0, uuid := List.replicate 16 0,
    rot_meta := [48, 0, 0, 128] ++ List.replicate 96 7,
    dck_pub := List.replicate 64 7, cc_socu := 0, cc_vu := 0, cc_beacon := 0,
    rot_pub := List.replicate 64 7,
    signature := some (List.replicate 64 7), signature_provider := none }

/-- Witness for the amended claim C4 at concrete inputs: one key gives a
4-byte rot_meta, three keys give a 96-byte table, and parsing a concrete
3-record buffer gives a 100-byte rot_meta. -/
theorem claim_C4_witness :
    (([16, 0, 0, 128] : List Nat)).length = 4 ∧
    (create_ctrk_table hash0 c4keys3).length = c4keys3.length * Variant.ecc256n4.HASH_LENGTH ∧
    c4parsed.rot_meta.length = 4 + 3 * 32 := by
  have H := claim_C4_amended hash0 .ecc256n4 rfl (fun sz d => by simp [hash0])
  refine ⟨H.1 0 [⟨256, 0, 0⟩] _ rfl rfl, H.2.1 c4keys3 (by decide) (by decide), ?_⟩
  have h3 := H.2.2 c4data 0 c4parsed rfl
  exact h3.trans (by rfl)

/-- Claim C10: variable-family parse reads the fixed header (SoC class,
uuid, constraints, beacon, flags) from absolute positions 4, 8, 24, 28,
32 and 36 of the buffer regardless of the offset argument, while the
CTRK table is read at offset + 40 and the tail fields (rot_pub,
debugger key, signature) at offset + 36 + len(rot_meta) onward; so all
fields come from the documented positions only when the offset is 0. -/
theorem claim_C10 : ∀ (v : Variant) (data : List Nat) (off : Nat)
    (c : DebugCredential), parseN4 v data off = .ok c →
    c.socc = asLE (slice data 4 4) ∧
    c.uuid = slice data 8 16 ∧
    c.cc_socu = asLE (slice data 24 4) ∧
    c.cc_vu = asLE (slice data 28 4) ∧
    c.cc_beacon = asLE (slice data 32 4) ∧
    c.rot_meta.take 4 = le32 (asLE (slice data 36 4)) ∧
    c.rot_meta.drop 4 = (if 1 < (asLE (slice data 36 4) &&& 240) >>> 4
      then slice data (off + 40) (((asLE (slice data 36 4) &&& 240) >>> 4) * v.HASH_LENGTH)
      else []) ∧
    c.rot_pub = slice data (off + 36 + c.rot_meta.length) (2 * v.HASH_LENGTH) ∧
    c.dck_pub = slice data (off + 36 + c.rot_meta.length + 2 * v.HASH_LENGTH) (2 * v.HASH_LENGTH) ∧
    c.signature = some (slice data (off + 36 + c.rot_meta.length + 4 * v.HASH_LENGTH) (2 * v.HASH_LENGTH)) := by
  intro v data off c h
  obtain ⟨-, -, -, hrm, hc⟩ := parseN4_ok_inv h
  have epos : off + 40 + c.rot_meta.length - 4 = off + 36 + c.rot_meta.length := by
    omega
  refine ⟨congrArg DebugCredential.socc hc, congrArg DebugCredential.uuid hc,
    congrArg DebugCredential.cc_socu hc, congrArg DebugCredential.cc_vu hc,
    congrArg DebugCredential.cc_beacon hc, ?_, ?_, ?_, ?_, ?_⟩
  · rw [hrm, List.take_left' (le32_length _)]
  · rw [hrm, List.drop_left' (le32_length _)]
  · rw [congrArg DebugCredential.rot_pub hc, epos]
  · rw [congrArg DebugCredential.dck_pub hc, epos]
  · rw [congrArg DebugCredential.signature hc, epos]

def c10data : List Nat :=
  [2, 0, 0, 0] ++ [4, 0, 0, 0] ++ List.replicate 16 1 ++
  [3, 0, 0, 0] ++ [2, 0, 0, 0] ++ [9, 0, 0, 0] ++ [16, 0, 0, 128] ++
  List.replicate 199 9

def c10parsed : DebugCredential :=
  { socc := 4, uuid := List.replicate 16 1, rot_meta := [16, 0, 0, 128],
    dck_pub := List.replicate 64 9, cc_socu := 3, cc_vu := 2, cc_beacon := 9,
    rot_pub := List.replicate 64 9, signature := some (List.replicate 64 9),
    signature_provider := none }

/-- Witness for claim C10: a concrete parse at the non-zero offset 7
whose header fields come from absolute position 0 and whose rot_pub comes
from position 7 + 36 + len(rot_meta). -/
theorem claim_C10_witness :
    parseN4 .ecc256n4 c10data 7 = .ok c10parsed ∧
    c10parsed.socc = asLE (slice c10data 4 4) ∧
    c10parsed.rot_pub = slice c10data (7 + 36 + c10parsed.rot_meta.length)
      (2 * Variant.ecc256n4.HASH_LENGTH) := by
  have h : parseN4 .ecc256n4 c10data 7 = .ok c10parsed := rfl
  exact ⟨h, (claim_C10 _ _ _ _ h).1, (claim_C10 _ _ _ _ h).2.2.2.2.2.2.2.1⟩

theorem rot_meta_fold {α : Type} (W : Nat) (g : α → List Nat) :
    ∀ (keys : List α) (j : Nat) (acc : List Nat),
    (∀ k ∈ keys, (g k).length = W) →
    j * W + keys.length * W ≤ acc.length →
    List.foldl (fun a p => writeSlice a (p.1 * W) ((p.1 + 1) * W) (g p.2)) acc
        (keys.enumFrom j)
      = acc.take (j * W) ++ ((keys.map g).join ++ acc.drop (j * W + keys.length * W)) := by
  intro keys
  induction keys with
  | nil =>
    intro j acc _ _
    simp [List.take_append_drop]
  | cons k ks ih =>
    intro j acc hg hbound
    have hgk : (g k).length = W := hg k (List.mem_cons_self _ _)
    rw [List.length_cons, Nat.succ_mul] at hbound
    have hjW : j * W ≤ acc.length := by omega
    simp only [List.enumFrom_cons, List.foldl_cons]
    have hacc' : writeSlice acc (j * W) ((j + 1) * W) (g k)
        = (acc.take (j * W) ++ g k) ++ acc.drop (j * W + W) := by
      unfold writeSlice
      rw [Nat.succ_mul, List.append_assoc]
    rw [hacc']
    have hplen : ((acc.take (j * W)) ++ g k).length = j * W + W := by
      simp [hgk]
      omega
    have hlen' : (j + 1) * W + ks.length * W
        ≤ ((acc.take (j * W) ++ g k) ++ acc.drop (j * W + W)).length := by
      rw [Nat.succ_mul]
      simp [hgk]
      omega
    rw [ih (j + 1) _ (fun x hx => hg x (List.mem_cons_of_mem _ hx)) hlen']
    have hA : ((acc.take (j * W) ++ g k) ++ acc.drop (j * W + W)).take ((j + 1) * W)
        = acc.take (j * W) ++ g k := by
      rw [Nat.succ_mul]
      exact List.take_left' hplen
    have hB : ((acc.take (j * W) ++ g k) ++ acc.drop (j * W + W)).drop ((j + 1) * W + ks.length * W)
        = acc.drop (j * W + (ks.length + 1) * W) := by
      have hd0 : ((acc.take (j * W) ++ g k) ++ acc.drop (j * W + W)).drop (j * W + W)
          = acc.drop (j * W + W) :=
        List.drop_left' hplen
      rw [Nat.succ_mul, ← List.drop_drop, hd0, List.drop_drop]
      congr 1
      ring
    rw [hA, hB]
    simp [List.append_assoc]

theorem join_const_length {l : List (List Nat)} {W : Nat}
    (h : ∀ x ∈ l, x.length = W) : l.join.length = l.length * W := by
  induction l with
  | nil => simp
  | cons x xs ih =>
    simp only [List.join_cons, List.length_append, List.length_cons,
      h x (List.mem_cons_self _ _), ih (fun y hy => h y (List.mem_cons_of_mem _ hy))]
    ring

theorem ecc_key_to_bytes_length (k : ECPublicKey) (n : Nat) :
    (ecc_key_to_bytes k n).length = n + n := by
  simp [ecc_key_to_bytes, beBytes_length]

/-- Counterexample to claim C3: the fixed-family ECC metadata builder
writes each key's raw 132-byte encoding into its slot, with both affine
coordinates recoverable verbatim (bytes 65 and 131 of slot 0 are the x
and y values of the key), and the slot content has length 132, not the
32 bytes of the family digest function used on the RSA path: no digest
is computed. -/
theorem claim_C3_counterexample :
    slice (get_rot_meta_ecc [k256]) 0 132 = ecc_key_to_bytes k256 66 ∧
    (get_rot_meta_ecc [k256])[65]? = some 1 ∧
    (get_rot_meta_ecc [k256])[131]? = some 2 ∧
    (ecc_key_to_bytes k256 66).length = 132 ∧
    (132 : Nat) ≠ 32 :=
  ⟨rfl, rfl, rfl, rfl, by decide⟩

/-- Claim C3 (amended): for up to 4 RoT keys, the fixed-family RoT
metadata builders return a zero-initialized block (128 bytes RSA, 528
bytes ECC) equal to the in-order concatenation of one fixed-width record
per key followed by zeros in every unused slot; for RSA the record at
slot i (stride 32) is the 32-byte digest of the key's encoding, but for
ECC the record at slot i (stride 132) is the key's raw 132-byte
public-number encoding itself, with no digest computed. -/
theorem claim_C3_amended :
    (∀ (hash : List Nat → List Nat) (keys : List RSAPublicKey),
      (∀ d, (hash d).length = 32) → keys.length ≤ 4 →
      get_rot_meta_rsa hash keys
        = (keys.map (fun k => hash (rsa_key_to_bytes k 3 none))).join
          ++ List.replicate (128 - keys.length * 32) 0 ∧
      (get_rot_meta_rsa hash keys).length = 128) ∧
    (∀ keys : List ECPublicKey, keys.length ≤ 4 →
      get_rot_meta_ecc keys
        = (keys.map (fun k => ecc_key_to_bytes k 66)).join
          ++ List.replicate (528 - keys.length * 132) 0 ∧
      (get_rot_meta_ecc keys).length = 528) := by
  constructor
  · intro hash keys hh hk
    have hfold := rot_meta_fold 32 (fun k => hash (rsa_key_to_bytes k 3 none))
      keys 0 (List.replicate 128 0) (fun k _ => hh _) (by simp; omega)
    have hmain : get_rot_meta_rsa hash keys
        = (keys.map (fun k => hash (rsa_key_to_bytes k 3 none))).join
          ++ List.replicate (128 - keys.length * 32) 0 := by
      unfold get_rot_meta_rsa
      rw [List.enum_eq_enumFrom, hfold]
      simp only [Nat.zero_mul, Nat.zero_add, List.take_zero, List.nil_append,
        List.drop_replicate]
    refine ⟨hmain, ?_⟩
    rw [hmain, List.length_append, List.length_replicate,
      join_const_length (W := 32) ?_]
    · simp
      omega
    · intro x hx
      obtain ⟨k, -, hkx⟩ := List.mem_map.mp hx
      rw [← hkx]
      exact hh _
  · intro keys hk
    have hfold := rot_meta_fold 132 (fun k => ecc_key_to_bytes k 66)
      keys 0 (List.replicate 528 0)
      (fun k _ => by simpa using ecc_key_to_bytes_length k 66) (by simp; omega)
    have hmain : get_rot_meta_ecc keys
        = (keys.map (fun k => ecc_key_to_bytes k 66)).join
          ++ List.replicate (528 - keys.length * 132) 0 := by
      unfold get_rot_meta_ecc
      rw [List.enum_eq_enumFrom, hfold]
      simp only [Nat.zero_mul, Nat.zero_add, List.take_zero, List.nil_append,
        List.drop_replicate]
    refine ⟨hmain, ?_⟩
    rw [hmain, List.length_append, List.length_replicate,
      join_const_length (W := 132) ?_]
    · simp
      omega
    · intro x hx
      obtain ⟨k, -, hkx⟩ := List.mem_map.mp hx
      rw [← hkx]
      simpa using ecc_key_to_bytes_length k 66

theorem exportBase_eq {v : Variant} {c : DebugCredential} {s : List Nat}
    (hs : c.signature = some s) (hslen : s.length = v.sigSize)
    (hsocc : c.socc < 4294967296) (h2 : c.cc_socu < 4294967296)
    (h3 : c.cc_vu < 4294967296) (h4 : c.cc_beacon < 4294967296)
    (hu : c.uuid.length = 16) (hrm : c.rot_meta.length = v.rotMetaSize)
    (hdck : c.dck_pub.length = v.dckSize) (hrp : c.rot_pub.length = v.rotPubSize) :
    c.exportBase v = .ok
      (le16 v.versionPair.1 ++ (le16 v.versionPair.2 ++ (le32 c.socc ++ (c.uuid ++
        (c.rot_meta ++ (c.dck_pub ++ (le32 c.cc_socu ++ (le32 c.cc_vu ++
        (le32 c.cc_beacon ++ (c.rot_pub ++ (s ++ []))))))))))) := by
  have hsb : sigBytes c = s := by simp [sigBytes, hs]
  have hne : ¬ sigBytes c = [] := by
    rw [hsb]
    intro h0
    rw [h0] at hslen
    have := sigSize_pos v
    simp at hslen
    omega
  unfold DebugCredential.exportBase
  rw [if_neg hne, hsb]
  have hfmt : fixedFormat v = [.u16, .u16, .u32, .bytes 16, .bytes v.rotMetaSize,
      .bytes v.dckSize, .u32, .u32, .u32, .bytes v.rotPubSize, .bytes v.sigSize] := by
    simp [fixedFormat, fixedFormatNoSig]
  rw [hfmt]
  exact packFmt_cons (packItem_u16 (versionPair_lt v).1)
    (packFmt_cons (packItem_u16 (versionPair_lt v).2)
    (packFmt_cons (packItem_u32 hsocc)
    (packFmt_cons (packItem_bytes hu)
    (packFmt_cons (packItem_bytes hrm)
    (packFmt_cons (packItem_bytes hdck)
    (packFmt_cons (packItem_u32 h2)
    (packFmt_cons (packItem_u32 h3)
    (packFmt_cons (packItem_u32 h4)
    (packFmt_cons (packItem_bytes hrp)
    (packFmt_cons (packItem_bytes hslen) packFmt_nil))))))))))

theorem calcsize_fixed (v : Variant) : calcsize (fixedFormat v)
    = 24 + v.rotMetaSize + v.dckSize + 12 + v.rotPubSize + v.sigSize := by
  simp [calcsize, fixedFormat, fixedFormatNoSig, itemSize]
  omega

theorem parseFixed_of_buffer (v : Variant) (socc socu vu be : Nat)
    (u rm dck rp sg : List Nat)
    (hsocc : socc < 4294967296) (h2 : socu < 4294967296) (h3 : vu < 4294967296)
    (h4 : be < 4294967296) (hu : u.length = 16) (hrm : rm.length = v.rotMetaSize)
    (hdck : dck.length = v.dckSize) (hrp : rp.length = v.rotPubSize)
    (hsg : sg.length = v.sigSize) (M m : Nat) :
    parseFixed v (le16 M ++ (le16 m ++ (le32 socc ++ (u ++ (rm ++ (dck ++
      (le32 socu ++ (le32 vu ++ (le32 be ++ (rp ++ (sg ++ []))))))))))) 0
      = .ok { socc := socc, uuid := u, rot_meta := rm, dck_pub := dck,
              cc_socu := socu, cc_vu := vu, cc_beacon := be, rot_pub := rp,
              signature := some sg, signature_provider := none } := by
  set D := le16 M ++ (le16 m ++ (le32 socc ++ (u ++ (rm ++ (dck ++
    (le32 socu ++ (le32 vu ++ (le32 be ++ (rp ++ (sg ++ [])))))))))) with hD
  have e0 : D.drop 0 = le16 M ++ (le16 m ++ (le32 socc ++ (u ++ (rm ++ (dck ++
      (le32 socu ++ (le32 vu ++ (le32 be ++ (rp ++ (sg ++ [])))))))))) := by
    rw [List.drop_zero]
  have e2 : D.drop 2 = le16 m ++ (le32 socc ++ (u ++ (rm ++ (dck ++
      (le32 socu ++ (le32 vu ++ (le32 be ++ (rp ++ (sg ++ []))))))))) :=
    drop_chain e0 (le16_length M)
  have e4 : D.drop 4 = le32 socc ++ (u ++ (rm ++ (dck ++
      (le32 socu ++ (le32 vu ++ (le32 be ++ (rp ++ (sg ++ [])))))))) :=
    drop_chain e2 (le16_length m)
  have e8 : D.drop 8 = u ++ (rm ++ (dck ++
      (le32 socu ++ (le32 vu ++ (le32 be ++ (rp ++ (sg ++ []))))))) :=
    drop_chain e4 (le32_length socc)
  have e24 : D.drop 24 = rm ++ (dck ++
      (le32 socu ++ (le32 vu ++ (le32 be ++ (rp ++ (sg ++ [])))))) :=
    drop_chain e8 hu
  have eR : D.drop (24 + v.rotMetaSize) = dck ++
      (le32 socu ++ (le32 vu ++ (le32 be ++ (rp ++ (sg ++ []))))) :=
    drop_chain e24 hrm
  have eK : D.drop (24 + v.rotMetaSize + v.dckSize) =
      le32 socu ++ (le32 vu ++ (le32 be ++ (rp ++ (sg ++ [])))) :=
    drop_chain eR hdck
  have eS : D.drop (28 + v.rotMetaSize + v.dckSize) =
      le32 vu ++ (le32 be ++ (rp ++ (sg ++ []))) := by
    rw [show 28 + v.rotMetaSize + v.dckSize
      = 24 + v.rotMetaSize + v.dckSize + 4 from by omega]
    exact drop_chain eK (le32_length socu)
  have eV : D.drop (32 + v.rotMetaSize + v.dckSize) =
      le32 be ++ (rp ++ (sg ++ [])) := by
    rw [show 32 + v.rotMetaSize + v.dckSize
      = 28 + v.rotMetaSize + v.dckSize + 4 from by omega]
    exact drop_chain eS (le32_length vu)
  have eB : D.drop (36 + v.rotMetaSize + v.dckSize) = rp ++ (sg ++ []) := by
    rw [show 36 + v.rotMetaSize + v.dckSize
      = 32 + v.rotMetaSize + v.dckSize + 4 from by omega]
    exact drop_chain eV (le32_length be)
  have eP : D.drop (36 + v.rotMetaSize + v.dckSize + v.rotPubSize) = sg ++ [] :=
    drop_chain eB hrp
  have hDlen : D.length = 24 + v.rotMetaSize + v.dckSize + 12 + v.rotPubSize + v.sigSize := by
    rw [hD]
    simp [List.length_append, le16, le32, hu, hrm, hdck, hrp, hsg]
    omega
  unfold parseFixed
  rw [if_neg (by rw [hDlen, calcsize_fixed]; omega)]
  simp only [Nat.zero_add, Except.ok.injEq, DebugCredential.mk.injEq]
  refine ⟨?_, take_of_drop e8 hu, take_of_drop e24 hrm, take_of_drop eR hdck,
    ?_, ?_, ?_, take_of_drop eB hrp, ?_, trivial⟩
  · rw [take_of_drop e4 (le32_length socc), asLE_le32_of_lt hsocc]
  · rw [take_of_drop eK (le32_length socu), asLE_le32_of_lt h2]
  · rw [take_of_drop eS (le32_length vu), asLE_le32_of_lt h3]
  · rw [take_of_drop eV (le32_length be), asLE_le32_of_lt h4]
  · rw [take_of_drop eP hsg]

theorem get_class_fixed {v : Variant} (hn4 : v.isN4 = false) {socc : Nat}
    (hsocc : socc ≠ 4) :
    get_class (mkVersionStr v.versionPair.1 v.versionPair.2) socc = .ok v := by
  have hbeq : (socc == 4) = false := by simp [hsocc]
  cases v
  case ecc256n4 => exact absurd hn4 (by decide)
  case ecc384n4 => exact absurd hn4 (by decide)
  all_goals (unfold get_class; rw [hbeq]; rfl)

theorem roundtripFixed {v : Variant} {c : DebugCredential}
    (hf : wellFormedFixed v c) :
    ∃ D, c.exportBase v = .ok D ∧ parseTop D 0 = .ok (v, c.clearProvider) := by
  obtain ⟨hn4, hsocc4, hsocc, h2, h3, h4, hu, hrm, hdck, hrp, hsig, hslen⟩ := hf
  obtain ⟨s, hs⟩ := Option.isSome_iff_exists.mp hsig
  have hsb : sigBytes c = s := by simp [sigBytes, hs]
  rw [hsb] at hslen
  refine ⟨_, exportBase_eq hs hslen hsocc h2 h3 h4 hu hrm hdck hrp, ?_⟩
  set D := le16 v.versionPair.1 ++ (le16 v.versionPair.2 ++ (le32 c.socc ++ (c.uuid ++
    (c.rot_meta ++ (c.dck_pub ++ (le32 c.cc_socu ++ (le32 c.cc_vu ++
    (le32 c.cc_beacon ++ (c.rot_pub ++ (s ++ [])))))))))) with hD
  have hDlen : D.length = 24 + v.rotMetaSize + v.dckSize + 12 + v.rotPubSize + v.sigSize := by
    rw [hD]
    simp [List.length_append, le16, le32, hu, hrm, hdck, hrp, hslen]
    omega
  have e0 : D.drop 0 = le16 v.versionPair.1 ++ (le16 v.versionPair.2 ++ (le32 c.socc ++
      (c.uuid ++ (c.rot_meta ++ (c.dck_pub ++ (le32 c.cc_socu ++ (le32 c.cc_vu ++
      (le32 c.cc_beacon ++ (c.rot_pub ++ (s ++ [])))))))))) := by
    rw [List.drop_zero]
  have e2 : D.drop 2 = le16 v.versionPair.2 ++ (le32 c.socc ++ (c.uuid ++ (c.rot_meta ++
      (c.dck_pub ++ (le32 c.cc_socu ++ (le32 c.cc_vu ++ (le32 c.cc_beacon ++
      (c.rot_pub ++ (s ++ []))))))))) :=
    drop_chain e0 (le16_length _)
  have e4 : D.drop 4 = le32 c.socc ++ (c.uuid ++ (c.rot_meta ++ (c.dck_pub ++
      (le32 c.cc_socu ++ (le32 c.cc_vu ++ (le32 c.cc_beacon ++
      (c.rot_pub ++ (s ++ [])))))))) :=
    drop_chain e2 (le16_length _)
  have f_v1 : slice D 0 2 = le16 v.versionPair.1 := take_of_drop e0 (le16_length _)
  have f_v2 : slice D 2 2 = le16 v.versionPair.2 := take_of_drop e2 (le16_length _)
  have f_socc : slice D 4 4 = le32 c.socc := take_of_drop e4 (le32_length _)
  unfold parseTop
  rw [if_neg (show ¬ (D.length < 0 + 4) by omega),
    if_neg (show ¬ (D.length < 0 + 8) by omega)]
  simp only [Nat.zero_add]
  rw [f_v1, f_v2, f_socc, asLE_le16_of_lt (versionPair_lt v).1,
    asLE_le16_of_lt (versionPair_lt v).2, asLE_le32_of_lt hsocc]
  rw [get_class_fixed hn4 hsocc4]
  simp only [parseTopDispatch]
  rw [if_neg (show ¬ (v.isN4 = true) by rw [hn4]; simp)]
  rw [hD, parseFixed_of_buffer v c.socc c.cc_socu c.cc_vu c.cc_beacon c.uuid
    c.rot_meta c.dck_pub c.rot_pub s hsocc h2 h3 h4 hu hrm hdck hrp hslen _ _]
  have hclear : c.clearProvider =
      { socc := c.socc, uuid := c.uuid, rot_meta := c.rot_meta,
        dck_pub := c.dck_pub, cc_socu := c.cc_socu, cc_vu := c.cc_vu,
        cc_beacon := c.cc_beacon, rot_pub := c.rot_pub,
        signature := some s, signature_provider := none } := by
    unfold DebugCredential.clearProvider
    rw [← hs]
  rw [hclear]
  rfl

theorem exportN4_eq {v : Variant} {c : DebugCredential} {s : List Nat}
    (hs : c.signature = some s) (hslen : s.length = 2 * v.HASH_LENGTH)
    (hsocc : c.socc < 4294967296) (h2 : c.cc_socu < 4294967296)
    (h3 : c.cc_vu < 4294967296) (h4 : c.cc_beacon < 4294967296)
    (hu : c.uuid.length = 16) (hrp : c.rot_pub.length = 2 * v.HASH_LENGTH)
    (hdck : c.dck_pub.length = 2 * v.HASH_LENGTH) :
    c.exportN4 v = .ok
      (le16 v.versionPair.1 ++ (le16 v.versionPair.2 ++ (le32 c.socc ++ (c.uuid ++
        (le32 c.cc_socu ++ (le32 c.cc_vu ++ (le32 c.cc_beacon ++ (c.rot_meta ++
        (c.rot_pub ++ (c.dck_pub ++ (s ++ []))))))))))) := by
  unfold DebugCredential.exportN4
  have hfmt : n4Format v c.rot_meta.length = [.u16, .u16, .u32, .bytes 16, .u32,
      .u32, .u32, .bytes c.rot_meta.length, .bytes (v.HASH_LENGTH * 2),
      .bytes (v.HASH_LENGTH * 2), .bytes (v.HASH_LENGTH * 2)] := by
    simp [n4Format, n4FormatNoSig]
  rw [hfmt, hs]
  exact packFmt_cons (packItem_u16 (versionPair_lt v).1)
    (packFmt_cons (packItem_u16 (versionPair_lt v).2)
    (packFmt_cons (packItem_u32 hsocc)
    (packFmt_cons (packItem_bytes hu)
    (packFmt_cons (packItem_u32 h2)
    (packFmt_cons (packItem_u32 h3)
    (packFmt_cons (packItem_u32 h4)
    (packFmt_cons (packItem_bytes rfl)
    (packFmt_cons (packItem_bytes (by omega))
    (packFmt_cons (packItem_bytes (by omega))
    (packFmt_cons (packItem_bytes (by omega)) packFmt_nil))))))))))

theorem parseN4tail_of_buffer (v : Variant) (c : DebugCredential) (s : List Nat)
    (D : List Nat)
    (hDdrop : D.drop 36 = c.rot_meta ++ (c.rot_pub ++ (c.dck_pub ++ (s ++ []))))
    (hDlen : D.length = 36 + c.rot_meta.length + 6 * v.HASH_LENGTH)
    (hrp : c.rot_pub.length = 2 * v.HASH_LENGTH)
    (hdck : c.dck_pub.length = 2 * v.HASH_LENGTH)
    (hslen : s.length = 2 * v.HASH_LENGTH)
    (hsig : c.signature = some s) :
    parseN4tail v D 0 c.rot_meta c.socc c.uuid c.cc_socu c.cc_vu c.cc_beacon
      = .ok c.clearProvider := by
  have eTail : D.drop (36 + c.rot_meta.length) = c.rot_pub ++ (c.dck_pub ++ (s ++ [])) :=
    drop_chain hDdrop rfl
  have f_rp : slice D (36 + c.rot_meta.length) (2 * v.HASH_LENGTH) = c.rot_pub :=
    take_of_drop eTail hrp
  have eT2 : D.drop (36 + c.rot_meta.length + 2 * v.HASH_LENGTH)
      = c.dck_pub ++ (s ++ []) :=
    drop_chain eTail hrp
  have f_dck : slice D (36 + c.rot_meta.length + 2 * v.HASH_LENGTH)
      (2 * v.HASH_LENGTH) = c.dck_pub :=
    take_of_drop eT2 hdck
  have eT3 : D.drop (36 + c.rot_meta.length + 2 * v.HASH_LENGTH + 2 * v.HASH_LENGTH)
      = s ++ [] :=
    drop_chain eT2 hdck
  have f_sg : slice D (36 + c.rot_meta.length + 4 * v.HASH_LENGTH)
      (2 * v.HASH_LENGTH) = s := by
    rw [show 36 + c.rot_meta.length + 4 * v.HASH_LENGTH
      = 36 + c.rot_meta.length + 2 * v.HASH_LENGTH + 2 * v.HASH_LENGTH from by omega]
    exact take_of_drop eT3 hslen
  unfold parseN4tail
  rw [if_neg (show ¬ (D.length < 0 + 40 + c.rot_meta.length - 4 + 6 * v.HASH_LENGTH)
    by omega)]
  rw [show (0 + 40 + c.rot_meta.length - 4 : Nat) = 36 + c.rot_meta.length
    from by omega]
  rw [f_rp, f_dck, f_sg]
  have hclear : c.clearProvider =
      { socc := c.socc, uuid := c.uuid, rot_meta := c.rot_meta,
        dck_pub := c.dck_pub, cc_socu := c.cc_socu, cc_vu := c.cc_vu,
        cc_beacon := c.cc_beacon, rot_pub := c.rot_pub,
        signature := some s, signature_provider := none } := by
    unfold DebugCredential.clearProvider
    rw [← hsig]
  rw [hclear]

theorem roundtripN4 {v : Variant} {c : DebugCredential}
    (hf : wellFormedN4 v c) :
    ∃ D, c.exportN4 v = .ok D ∧ parseN4 v D 0 = .ok c.clearProvider := by
  obtain ⟨hn4, hsocc, h2, h3, h4, hu, hrm4, hbit, hrec1, hrec0, hrp, hdck, hsig, hslen⟩ := hf
  obtain ⟨s, hs⟩ := Option.isSome_iff_exists.mp hsig
  have hsb : sigBytes c = s := by simp [sigBytes, hs]
  rw [hsb] at hslen
  refine ⟨_, exportN4_eq hs hslen hsocc h2 h3 h4 hu hrp hdck, ?_⟩
  set D := le16 v.versionPair.1 ++ (le16 v.versionPair.2 ++ (le32 c.socc ++ (c.uuid ++
    (le32 c.cc_socu ++ (le32 c.cc_vu ++ (le32 c.cc_beacon ++ (c.rot_meta ++
    (c.rot_pub ++ (c.dck_pub ++ (s ++ [])))))))))) with hD
  have hsplit : c.rot_meta = le32 (n4flags c) ++ c.rot_meta.drop 4 := by
    conv_lhs => rw [← List.take_append_drop 4 c.rot_meta]
    rw [hrm4]
  have hrmlen : c.rot_meta.length = 4 + (c.rot_meta.drop 4).length := by
    conv_lhs => rw [hsplit]
    rw [List.length_append, le32_length]
  have hflt : n4flags c < 4294967296 := by
    have hfx : n4flags c = asLE (c.rot_meta.take 4) := by
      simp [n4flags, slice]
    rw [hrm4, asLE_le32] at hfx
    omega
  have hDlen : D.length = 36 + c.rot_meta.length + 6 * v.HASH_LENGTH := by
    rw [hD]
    simp [List.length_append, le16, le32, hu, hrp, hdck, hslen]
    omega
  have e0 : D.drop 0 = le16 v.versionPair.1 ++ (le16 v.versionPair.2 ++ (le32 c.socc ++
      (c.uuid ++ (le32 c.cc_socu ++ (le32 c.cc_vu ++ (le32 c.cc_beacon ++
      (c.rot_meta ++ (c.rot_pub ++ (c.dck_pub ++ (s ++ [])))))))))) := by
    rw [List.drop_zero]
  have e2 : D.drop 2 = le16 v.versionPair.2 ++ (le32 c.socc ++ (c.uuid ++
      (le32 c.cc_socu ++ (le32 c.cc_vu ++ (le32 c.cc_beacon ++ (c.rot_meta ++
      (c.rot_pub ++ (c.dck_pub ++ (s ++ []))))))))) :=
    drop_chain e0 (le16_length _)
  have e4 : D.drop 4 = le32 c.socc ++ (c.uuid ++ (le32 c.cc_socu ++ (le32 c.cc_vu ++
      (le32 c.cc_beacon ++ (c.rot_meta ++ (c.rot_pub ++ (c.dck_pub ++ (s ++ [])))))))) :=
    drop_chain e2 (le16_length _)
  have e8 : D.drop 8 = c.uuid ++ (le32 c.cc_socu ++ (le32 c.cc_vu ++
      (le32 c.cc_beacon ++ (c.rot_meta ++ (c.rot_pub ++ (c.dck_pub ++ (s ++ []))))))) :=
    drop_chain e4 (le32_length _)
  have e24 : D.drop 24 = le32 c.cc_socu ++ (le32 c.cc_vu ++ (le32 c.cc_beacon ++
      (c.rot_meta ++ (c.rot_pub ++ (c.dck_pub ++ (s ++ [])))))) :=
    drop_chain e8 hu
  have e28 : D.drop 28 = le32 c.cc_vu ++ (le32 c.cc_beacon ++ (c.rot_meta ++
      (c.rot_pub ++ (c.dck_pub ++ (s ++ []))))) :=
    drop_chain e24 (le32_length _)
  have e32 : D.drop 32 = le32 c.cc_beacon ++ (c.rot_meta ++ (c.rot_pub ++
      (c.dck_pub ++ (s ++ [])))) :=
    drop_chain e28 (le32_length _)
  have e36 : D.drop 36 = c.rot_meta ++ (c.rot_pub ++ (c.dck_pub ++ (s ++ []))) :=
    drop_chain e32 (le32_length _)
  have e36' : D.drop 36 = le32 (n4flags c) ++ (c.rot_meta.drop 4 ++ (c.rot_pub ++
      (c.dck_pub ++ (s ++ [])))) := by
    rw [e36]
    conv_lhs => rw [hsplit]
    rw [List.append_assoc]
  have f_socc : slice D 4 4 = le32 c.socc := take_of_drop e4 (le32_length _)
  have f_uuid : slice D 8 16 = c.uuid := take_of_drop e8 hu
  have f_socu : slice D 24 4 = le32 c.cc_socu := take_of_drop e24 (le32_length _)
  have f_vu : slice D 28 4 = le32 c.cc_vu := take_of_drop e28 (le32_length _)
  have f_be : slice D 32 4 = le32 c.cc_beacon := take_of_drop e32 (le32_length _)
  have f_flags : slice D 36 4 = le32 (n4flags c) := take_of_drop e36' (le32_length _)
  have e40 : D.drop 40 = c.rot_meta.drop 4 ++ (c.rot_pub ++ (c.dck_pub ++ (s ++ []))) :=
    drop_chain e36' (le32_length _)
  have hfread : asLE (slice D 36 4) = n4flags c := by
    rw [f_flags, asLE_le32_of_lt hflt]
  have hnr : (n4flags c &&& 240) >>> 4 = n4records c := rfl
  unfold parseN4
  rw [if_neg (show ¬ (D.length < 40) by omega)]
  rw [hfread, hnr]
  rw [if_neg (show ¬ ((n4flags c &&& 2147483648 == 0) = true) by
    simp only [beq_iff_eq]; exact hbit)]
  by_cases hr : 1 < n4records c
  · rw [if_pos hr]
    have hctlen : (c.rot_meta.drop 4).length = n4records c * v.HASH_LENGTH := hrec1 hr
    rw [if_neg (show ¬ (D.length < 0 + 40 + n4records c * v.HASH_LENGTH) by omega)]
    simp only [Nat.zero_add]
    have f_ctrk : slice D 40 (n4records c * v.HASH_LENGTH) = c.rot_meta.drop 4 :=
      take_of_drop e40 hctlen
    rw [f_ctrk, f_socc, f_uuid, f_socu, f_vu, f_be,
      asLE_le32_of_lt hsocc, asLE_le32_of_lt h2, asLE_le32_of_lt h3,
      asLE_le32_of_lt h4, ← hsplit]
    exact parseN4tail_of_buffer v c s D e36 hDlen hrp hdck hslen hs
  · rw [if_neg hr]
    have hsplit0 : c.rot_meta = le32 (n4flags c) := by
      rw [hsplit, hrec0 hr, List.append_nil]
    rw [f_socc, f_uuid, f_socu, f_vu, f_be,
      asLE_le32_of_lt hsocc, asLE_le32_of_lt h2, asLE_le32_of_lt h3,
      asLE_le32_of_lt h4, ← hsplit0]
    exact parseN4tail_of_buffer v c s D e36 hDlen hrp hdck hslen hs

def c3hash : List Nat → List Nat := fun _ => List.replicate 32 5

/-- Witness for the amended claim C3: two RSA keys and one ECC key at
concrete values. -/
theorem claim_C3_witness :
    get_rot_meta_rsa c3hash [⟨2048, 9, 3⟩, ⟨2048, 11, 3⟩]
      = ([⟨2048, 9, 3⟩, ⟨2048, 11, 3⟩].map
          (fun k => c3hash (rsa_key_to_bytes k 3 none))).join
        ++ List.replicate (128 - 2 * 32) 0 ∧
    (get_rot_meta_ecc [k256]).length = 528 :=
  ⟨((claim_C3_amended.1 c3hash _ (fun d => rfl) (by decide)).1),
   (claim_C3_amended.2 [k256] (by decide)).2⟩

theorem fieldsEq_clearProvider (c : DebugCredential) :
    fieldsEqExceptProvider c.clearProvider c = true := by
  simp [fieldsEqExceptProvider, DebugCredential.clearProvider]

theorem eqBase_clearProvider (c : DebugCredential) :
    (c.clearProvider.eqBase c = true ↔ c.signature_provider = none) := by
  obtain ⟨socc, u, rm, dck, socu, vu, be, rp, sg, prov⟩ := c
  simp [DebugCredential.eqBase, DebugCredential.clearProvider,
    DebugCredential.mk.injEq, eq_comm]

theorem eqN4_clearProvider (c : DebugCredential) :
    (c.clearProvider.eqN4 c).1 = true := by
  simp [DebugCredential.eqN4, DebugCredential.clearProvider]

/-- Claim C1 (amended): for every variant, parsing the bytes exported
from a well-formed signed credential yields the original credential with
the signature-provider reference cleared (every other field, the
signature bytes included, survives the round trip).  But the equality
the code implements differs by family: the variable-family equality
compares exactly the fields without the provider, while the fixed-family
(base) equality compares every attribute including the provider, so a
parsed credential compares equal to the original there only when the
original carries no provider. -/
theorem claim_C1_amended : ∀ (v : Variant) (c : DebugCredential),
    (wellFormedFixed v c →
      ∃ D, c.exportBase v = .ok D ∧ parseTop D 0 = .ok (v, c.clearProvider) ∧
        fieldsEqExceptProvider c.clearProvider c = true ∧
        (c.clearProvider.eqBase c = true ↔ c.signature_provider = none)) ∧
    (wellFormedN4 v c →
      ∃ D, c.exportN4 v = .ok D ∧ parseN4 v D 0 = .ok c.clearProvider ∧
        fieldsEqExceptProvider c.clearProvider c = true ∧
        (c.clearProvider.eqN4 c).1 = true) := by
  intro v c
  constructor
  · intro hf
    obtain ⟨D, hexp, hparse⟩ := roundtripFixed hf
    exact ⟨D, hexp, hparse, fieldsEq_clearProvider c, eqBase_clearProvider c⟩
  · intro hf
    obtain ⟨D, hexp, hparse⟩ := roundtripN4 hf
    exact ⟨D, hexp, hparse, fieldsEq_clearProvider c, eqN4_clearProvider c⟩

def c1fix : DebugCredential :=
  { socc := 1, uuid := List.replicate 16 2, rot_meta := List.replicate 128 3,
    dck_pub := List.replicate 260 4, cc_socu := 5, cc_vu := 6, cc_beacon := 7,
    rot_pub := List.replicate 260 8, signature := some (List.replicate 256 9),
    signature_provider := some 5 }

/-- Counterexample to claim C1: for a concrete signed RSA-2048 credential
with a signer attached, export-then-parse reproduces every field except
the provider, yet the parsed credential is not equal to the original
under the code's base equality (which, unlike the claim's equality,
compares the signature-provider attribute too): the composite evaluates
to (equal = false, fields-except-provider-equal = true). -/
theorem claim_C1_counterexample :
    ((c1fix.exportBase .rsa2048).bind (fun D => parseTop D 0)).map
        (fun p => (p.2.eqBase c1fix, fieldsEqExceptProvider p.2 c1fix))
      = .ok (false, true) ∧
    c1fix.signature_provider = some 5 := by
  exact ⟨rfl, rfl⟩

def c1n4 : DebugCredential :=
  { socc := 4, uuid := List.replicate 16 0, rot_meta := [16, 0, 0, 128],
    dck_pub := List.replicate 64 1, cc_socu := 0, cc_vu := 0, cc_beacon := 0,
    rot_pub := List.replicate 64 2, signature := some (List.replicate 64 3),
    signature_provider := some 9 }

/-- Witness for the amended claim C1: one concrete credential per family,
with a signer attached, round-tripping through its family's export and
parse. -/
theorem claim_C1_witness :
    (∃ D, c1fix.exportBase .rsa2048 = .ok D ∧
      parseTop D 0 = .ok (.rsa2048, c1fix.clearProvider) ∧
      fieldsEqExceptProvider c1fix.clearProvider c1fix = true ∧
      (c1fix.clearProvider.eqBase c1fix = true ↔ c1fix.signature_provider = none)) ∧
    (∃ D, c1n4.exportN4 .ecc256n4 = .ok D ∧
      parseN4 .ecc256n4 D 0 = .ok c1n4.clearProvider ∧
      fieldsEqExceptProvider c1n4.clearProvider c1n4 = true ∧
      (c1n4.clearProvider.eqN4 c1n4).1 = true) :=
  ⟨(claim_C1_amended .rsa2048 c1fix).1 (by decide),
   (claim_C1_amended .ecc256n4 c1n4).2 (by decide)⟩

end SpsdkDC
